import Mathlib

/-!
Verification of the serenity-slash-decode core (`src/lib.rs`, `src/errors.rs`):
a decoder that turns a nested slash-command interaction payload into a command
path string and a flat argument map with typed, per-field-error accessors.

External serenity record shapes (`User`, `PartialMember`, `PartialChannel`,
`Role`) are opaque payloads the core only copies; they are modelled as minimal
records. The tagged value union (serenity's
`ApplicationCommandInteractionDataOptionValue`) and the option-kind tag
enumeration are modelled from the spec's data model (section 3).

Rust panics (the `unwrap` inside `get_type_name`) are modelled with `Option`:
a function returns `none` exactly when the Rust original would panic.
-/

namespace SlashDecode

/-- Opaque user record copied from the platform payload. -/
structure UserRec where
  id : Nat
deriving DecidableEq, Repr

/-- Opaque guild-member record copied from the platform payload
(serenity's PartialMember). -/
structure MemberRec where
  nick : Option String
deriving DecidableEq, Repr

/-- Opaque channel record copied from the platform payload
(serenity's PartialChannel). -/
structure ChannelRec where
  name : String
deriving DecidableEq, Repr

/-- Opaque role record copied from the platform payload. -/
structure RoleRec where
  id : Nat
  name : String
deriving DecidableEq, Repr

/-- Modelled from the spec: the TypedValue union of section 3 (serenity's
`ApplicationCommandInteractionDataOptionValue`, which is external to the
repository). Variants as listed there: String(text), Integer(64-bit signed),
Boolean, User(user-record, optional member-record), Channel(partial-channel
record), Role(role-record), Mentionable(either a user/member pair or a role). -/
inductive TypedValue where
  | String (s : String)
  | Integer (n : Int)
  | Boolean (b : Bool)
  | User (u : UserRec) (m : Option MemberRec)
  | Channel (c : ChannelRec)
  | Role (r : RoleRec)
  | Mentionable (v : UserRec × Option MemberRec ⊕ RoleRec)
deriving DecidableEq, Repr

/-- Modelled from the spec: the `kind` tag enumeration of section 3
(serenity's `ApplicationCommandOptionType`, external to the repository). -/
inductive OptionKind where
  | String
  | Integer
  | Boolean
  | User
  | Channel
  | Role
  | Mentionable
  | SubCommand
  | SubCommandGroup
deriving DecidableEq, Repr

/-- The error enum of `src/errors.rs` (borrowed name slices become owned
strings; the spec calls this lifetime-vs-allocation choice non-behavioral). -/
inductive Error where
  | WrongType (expected : String) (found : String) (name : String)
  | MissingValue (name : String)
deriving DecidableEq, Repr

/-- `SlashValue` of `src/lib.rs`: the optional tagged value plus the
parameter name retained for error messages. -/
structure SlashValue where
  inner : Option TypedValue
  name : String
deriving DecidableEq, Repr

/-- `UserOrMember` of `src/lib.rs`. -/
inductive UserOrMember where
  | User (u : UserRec)
  | Member (u : UserRec) (m : MemberRec)
deriving DecidableEq, Repr

/-- `UserOrMember::from_pair` of `src/lib.rs`. -/
def UserOrMember.from_pair (user : UserRec) (member : Option MemberRec) : UserOrMember :=
  match member with
  | some m => UserOrMember.Member user m
  | none => UserOrMember.User user

/-- `Mentionable` of `src/lib.rs` (the accessor result type). -/
inductive Mentionable where
  | UserOrMember (u : SlashDecode.UserOrMember)
  | Role (r : RoleRec)
deriving DecidableEq, Repr

/-- `SlashValue::get_type_name` of `src/lib.rs` lines 80-90. The Rust body
calls `self.inner.as_ref().unwrap()`; `none` here models that panic. -/
def SlashValue.get_type_name (self : SlashValue) : Option String :=
  match self.inner with
  | none => none
  | some v =>
    some (match v with
      | TypedValue.String _ => "String"
      | TypedValue.Integer _ => "Integer"
      | TypedValue.Boolean _ => "Boolean"
      | TypedValue.User _ _ => "User"
      | TypedValue.Channel _ => "Channel"
      | TypedValue.Role _ => "Role"
      | _ => "Unknown")

/-- `SlashValue::expect_some` of `src/lib.rs` lines 93-98. -/
def SlashValue.expect_some (self : SlashValue) : Except Error TypedValue :=
  match self.inner with
  | some s => Except.ok s
  | none => Except.error (Error.MissingValue self.name)

/-- `SlashValue::get_string` of `src/lib.rs` lines 101-110. The result is
wrapped in `Option`: `none` models the panic that `get_type_name` could raise. -/
def SlashValue.get_string (self : SlashValue) : Option (Except Error String) :=
  match self.expect_some with
  | Except.error e => some (Except.error e)
  | Except.ok v =>
    match v with
    | TypedValue.String s => some (Except.ok s)
    | _ => self.get_type_name.map fun t => Except.error (Error.WrongType "String" t self.name)

/-- `SlashValue::get_integer` of `src/lib.rs` lines 113-122. -/
def SlashValue.get_integer (self : SlashValue) : Option (Except Error Int) :=
  match self.expect_some with
  | Except.error e => some (Except.error e)
  | Except.ok v =>
    match v with
    | TypedValue.Integer n => some (Except.ok n)
    | _ => self.get_type_name.map fun t => Except.error (Error.WrongType "Integer" t self.name)

/-- `SlashValue::get_boolean` of `src/lib.rs` lines 125-134. -/
def SlashValue.get_boolean (self : SlashValue) : Option (Except Error Bool) :=
  match self.expect_some with
  | Except.error e => some (Except.error e)
  | Except.ok v =>
    match v with
    | TypedValue.Boolean b => some (Except.ok b)
    | _ => self.get_type_name.map fun t => Except.error (Error.WrongType "Boolean" t self.name)

/-- `SlashValue::get_user` of `src/lib.rs` lines 137-148. -/
def SlashValue.get_user (self : SlashValue) : Option (Except Error UserOrMember) :=
  match self.expect_some with
  | Except.error e => some (Except.error e)
  | Except.ok v =>
    match v with
    | TypedValue.User u m => some (Except.ok (UserOrMember.from_pair u m))
    | _ => self.get_type_name.map fun t => Except.error (Error.WrongType "User" t self.name)

/-- `SlashValue::get_channel` of `src/lib.rs` lines 151-160. -/
def SlashValue.get_channel (self : SlashValue) : Option (Except Error ChannelRec) :=
  match self.expect_some with
  | Except.error e => some (Except.error e)
  | Except.ok v =>
    match v with
    | TypedValue.Channel c => some (Except.ok c)
    | _ => self.get_type_name.map fun t => Except.error (Error.WrongType "Channel" t self.name)

/-- `SlashValue::get_role` of `src/lib.rs` lines 163-172. -/
def SlashValue.get_role (self : SlashValue) : Option (Except Error RoleRec) :=
  match self.expect_some with
  | Except.error e => some (Except.error e)
  | Except.ok v =>
    match v with
    | TypedValue.Role r => some (Except.ok r)
    | _ => self.get_type_name.map fun t => Except.error (Error.WrongType "Role" t self.name)

/-- `SlashValue::get_mentionable` of `src/lib.rs` lines 175-187. -/
def SlashValue.get_mentionable (self : SlashValue) : Option (Except Error Mentionable) :=
  match self.expect_some with
  | Except.error e => some (Except.error e)
  | Except.ok v =>
    match v with
    | TypedValue.User u m =>
      some (Except.ok (Mentionable.UserOrMember (UserOrMember.from_pair u m)))
    | TypedValue.Role r => some (Except.ok (Mentionable.Role r))
    | _ => self.get_type_name.map fun t => Except.error (Error.WrongType "Mentionable" t self.name)

/-- `SlashMap` of `src/lib.rs`: wrapper around `HashMap<String, SlashValue>`,
modelled extensionally as a lookup function. -/
abbrev SlashMap := String → Option SlashValue

/-- `SlashMap::new` of `src/lib.rs`. -/
def SlashMap.new : SlashMap := fun _ => none

/-- `HashMap::insert`: the new binding replaces any previous one. -/
def SlashMap.insert (m : SlashMap) (k : String) (v : SlashValue) : SlashMap :=
  fun q => if q = k then some v else m q

/-- `SlashMap::get_string` of `src/lib.rs` lines 199-204. -/
def SlashMap.get_string (self : SlashMap) (name : String) : Option (Except Error String) :=
  match self name with
  | some s => s.get_string
  | none => some (Except.error (Error.MissingValue name))

/-- `SlashMap::get_integer` of `src/lib.rs` lines 207-212. -/
def SlashMap.get_integer (self : SlashMap) (name : String) : Option (Except Error Int) :=
  match self name with
  | some s => s.get_integer
  | none => some (Except.error (Error.MissingValue name))

/-- `SlashMap::get_boolean` of `src/lib.rs` lines 215-220. -/
def SlashMap.get_boolean (self : SlashMap) (name : String) : Option (Except Error Bool) :=
  match self name with
  | some s => s.get_boolean
  | none => some (Except.error (Error.MissingValue name))

/-- `SlashMap::get_user` of `src/lib.rs` lines 223-228. -/
def SlashMap.get_user (self : SlashMap) (name : String) : Option (Except Error UserOrMember) :=
  match self name with
  | some s => s.get_user
  | none => some (Except.error (Error.MissingValue name))

/-- `SlashMap::get_channel` of `src/lib.rs` lines 231-236. -/
def SlashMap.get_channel (self : SlashMap) (name : String) : Option (Except Error ChannelRec) :=
  match self name with
  | some s => s.get_channel
  | none => some (Except.error (Error.MissingValue name))

/-- `SlashMap::get_role` of `src/lib.rs` lines 239-244. -/
def SlashMap.get_role (self : SlashMap) (name : String) : Option (Except Error RoleRec) :=
  match self name with
  | some s => s.get_role
  | none => some (Except.error (Error.MissingValue name))

/-- `SlashMap::get_mentionable` of `src/lib.rs` lines 247-252. -/
def SlashMap.get_mentionable (self : SlashMap) (name : String) : Option (Except Error Mentionable) :=
  match self name with
  | some s => s.get_mentionable
  | none => some (Except.error (Error.MissingValue name))

/-- Modelled from the spec: an InteractionNode below the root (serenity's
`ApplicationCommandInteractionDataOption`, external to the repository):
`name`, `kind` tag, ordered `options` children, optional `resolved` value. -/
inductive DataOption where
  | mk (name : String) (kind : OptionKind) (options : List DataOption)
       (resolved : Option TypedValue)

/-- Field accessor for `DataOption.name`. -/
def DataOption.name : DataOption → String
  | DataOption.mk n _ _ _ => n

/-- Field accessor for `DataOption.kind`. -/
def DataOption.kind : DataOption → OptionKind
  | DataOption.mk _ k _ _ => k

/-- Field accessor for `DataOption.options`. -/
def DataOption.options : DataOption → List DataOption
  | DataOption.mk _ _ o _ => o

/-- Field accessor for `DataOption.resolved`. -/
def DataOption.resolved : DataOption → Option TypedValue
  | DataOption.mk _ _ _ r => r

/-- Modelled from the spec: the root InteractionNode (serenity's
`ApplicationCommandInteractionData`): root command `name` and `options`. -/
structure InteractionData where
  name : String
  options : List DataOption

/-- The traversal loop of `process` (`src/lib.rs` lines 268-284): follow the
first child while it is a SubCommand or SubCommandGroup, accumulating names;
returns the accumulated path segments and the residual option list the
argument map is built from. -/
def walk : List DataOption → List String × List DataOption
  | [] => ([], [])
  | opt :: rest =>
    if opt.kind = OptionKind.SubCommand ∨ opt.kind = OptionKind.SubCommandGroup then
      let r := walk opt.options
      (opt.name :: r.1, r.2)
    else
      ([], opt :: rest)
termination_by opts => sizeOf opts
decreasing_by
  cases opt
  simp [DataOption.options]
  omega

/-- One iteration of the map-building loop of `process` (`src/lib.rs` lines
288-296): insert a `SlashValue` for the option, keyed and named by its name. -/
def insertOption (m : SlashMap) (o : DataOption) : SlashMap :=
  m.insert o.name (SlashValue.mk o.resolved o.name)

/-- The map-building loop of `process` (`src/lib.rs` lines 287-296): insert
one `SlashValue` per residual option, keyed and named by the option name. -/
def buildMap (opts : List DataOption) : SlashMap :=
  opts.foldl insertOption SlashMap.new

/-- `process` of `src/lib.rs` lines 263-299. -/
def process (interaction : InteractionData) : String × SlashMap :=
  let r := walk interaction.options
  (String.intercalate " " (interaction.name :: r.1), buildMap r.2)

/-- A chain of nested SubCommand nodes, each the only child of its parent:
`chainOptions [n1, ..., nN]` is the option list of a root whose subcommand
path continues with n1 ... nN and ends with no further children. -/
def chainOptions : List String → List DataOption
  | [] => []
  | n :: ns => [DataOption.mk n OptionKind.SubCommand (chainOptions ns) none]

/-- Fuel-indexed version of the traversal loop, used to witness termination:
each loop iteration consumes one unit of fuel and recurses strictly deeper
into the tree; `none` means the fuel ran out. -/
def walkFuel : Nat → List DataOption → Option (List String × List DataOption)
  | 0, _ => none
  | _ + 1, [] => some ([], [])
  | n + 1, opt :: rest =>
    if opt.kind = OptionKind.SubCommand ∨ opt.kind = OptionKind.SubCommandGroup then
      (walkFuel n opt.options).map fun r => (opt.name :: r.1, r.2)
    else
      some ([], opt :: rest)

/-- The kind tag a typed value is discriminated by. -/
def TypedValue.tag : TypedValue → OptionKind
  | TypedValue.String _ => OptionKind.String
  | TypedValue.Integer _ => OptionKind.Integer
  | TypedValue.Boolean _ => OptionKind.Boolean
  | TypedValue.User _ _ => OptionKind.User
  | TypedValue.Channel _ => OptionKind.Channel
  | TypedValue.Role _ => OptionKind.Role
  | TypedValue.Mentionable _ => OptionKind.Mentionable

/-- The `found` string an accessor's WrongType error reports for each value
variant: the six variants named in `get_type_name` report their own names,
and any other variant (here Mentionable) reports the fallback "Unknown". -/
def variantName : TypedValue → String
  | TypedValue.String _ => "String"
  | TypedValue.Integer _ => "Integer"
  | TypedValue.Boolean _ => "Boolean"
  | TypedValue.User _ _ => "User"
  | TypedValue.Channel _ => "Channel"
  | TypedValue.Role _ => "Role"
  | TypedValue.Mentionable _ => "Unknown"

/-- Whether an accessor call succeeded (returned without panic and with `ok`). -/
def succeeds {α : Type} : Option (Except Error α) → Bool
  | some (Except.ok _) => true
  | _ => false

/-- Read-back property for the round trip: the typed accessor paired with the
tag of `v` (section 4.3 pairs get_string with String, ..., get_role with Role)
returns `ok` with the original value. For a Mentionable-tagged value the
property asserts nothing: no accessor succeeds on that tag (see the
round-trip counterexample). -/
def readBack (m : SlashMap) (name : String) : TypedValue → Prop
  | TypedValue.String s => m.get_string name = some (Except.ok s)
  | TypedValue.Integer n => m.get_integer name = some (Except.ok n)
  | TypedValue.Boolean b => m.get_boolean name = some (Except.ok b)
  | TypedValue.User u mem => m.get_user name = some (Except.ok (UserOrMember.from_pair u mem))
  | TypedValue.Channel c => m.get_channel name = some (Except.ok c)
  | TypedValue.Role r => m.get_role name = some (Except.ok r)
  | TypedValue.Mentionable _ => True

/-- Concrete payload: root "foo" with a single String-kind leaf option "x"
whose resolved value is absent. -/
def emptyCellData : InteractionData :=
  ⟨"foo", [DataOption.mk "x" OptionKind.String [] none]⟩

/-- Concrete payload: root "foo" with leaf options "text" (String "hi") and
"integer" (Integer 42), the concrete scenario of section 8. -/
def roundTripData : InteractionData :=
  ⟨"foo",
    [DataOption.mk "text" OptionKind.String [] (some (TypedValue.String "hi")),
     DataOption.mk "integer" OptionKind.Integer [] (some (TypedValue.Integer 42))]⟩

/-- Concrete payload: root "foo" with one leaf option "m" whose resolved
value carries the Mentionable tag (a role payload). -/
def mentionableTagData : InteractionData :=
  ⟨"foo",
    [DataOption.mk "m" OptionKind.Mentionable []
      (some (TypedValue.Mentionable (Sum.inr (RoleRec.mk 1 "r"))))]⟩

/-- Concrete leaf option named "x" holding a String value. -/
def dupOpt1 : DataOption :=
  DataOption.mk "x" OptionKind.String [] (some (TypedValue.String "a"))

/-- Concrete leaf option also named "x", holding an Integer value. -/
def dupOpt2 : DataOption :=
  DataOption.mk "x" OptionKind.Integer [] (some (TypedValue.Integer 2))

/-! Equation lemmas for the traversal loop. -/

theorem walk_nil : walk [] = ([], []) := by
  simp [walk]

theorem walk_cons_sub (opt : DataOption) (rest : List DataOption)
    (h : opt.kind = OptionKind.SubCommand ∨ opt.kind = OptionKind.SubCommandGroup) :
    walk (opt :: rest) = (opt.name :: (walk opt.options).1, (walk opt.options).2) := by
  rw [walk]
  simp [h]

theorem walk_cons_leaf (opt : DataOption) (rest : List DataOption)
    (h : ¬(opt.kind = OptionKind.SubCommand ∨ opt.kind = OptionKind.SubCommandGroup)) :
    walk (opt :: rest) = ([], opt :: rest) := by
  rw [walk]
  simp [h]

/-! Lookup lemmas for the map-building loop. -/

theorem insertOption_apply (m : SlashMap) (o : DataOption) (k : String) :
    insertOption m o k =
      if k = o.name then some (SlashValue.mk o.resolved o.name) else m k := by
  simp [insertOption, SlashMap.insert]

theorem foldl_insertOption_apply_of_not_mem (l : List DataOption) (m : SlashMap) (k : String)
    (h : k ∉ l.map DataOption.name) :
    l.foldl insertOption m k = m k := by
  induction l generalizing m with
  | nil => rfl
  | cons o t ih =>
    simp only [List.map_cons, List.mem_cons, not_or] at h
    rw [List.foldl_cons, ih _ h.2, insertOption_apply, if_neg h.1]

theorem foldl_insertOption_name_invariant (l : List DataOption) (m : SlashMap) (k : String)
    (hm : ∀ cell, m k = some cell → cell.name = k) :
    ∀ cell, l.foldl insertOption m k = some cell → cell.name = k := by
  induction l generalizing m with
  | nil => exact hm
  | cons o t ih =>
    intro cell h
    refine ih (insertOption m o) ?_ cell h
    intro c hc
    rw [insertOption_apply] at hc
    by_cases hk : k = o.name
    · rw [if_pos hk] at hc
      cases hc
      exact hk.symm
    · rw [if_neg hk] at hc
      exact hm c hc

theorem buildMap_name_invariant (l : List DataOption) (k : String) :
    ∀ cell, buildMap l k = some cell → cell.name = k := by
  refine foldl_insertOption_name_invariant l SlashMap.new k ?_
  intro cell h
  cases h

theorem foldl_insertOption_apply_of_mem_nodup (l : List DataOption) (m : SlashMap)
    (o : DataOption) (ho : o ∈ l) (hnd : (l.map DataOption.name).Nodup) :
    l.foldl insertOption m o.name = some (SlashValue.mk o.resolved o.name) := by
  induction l generalizing m with
  | nil => cases ho
  | cons a t ih =>
    simp only [List.map_cons, List.nodup_cons] at hnd
    rcases List.mem_cons.mp ho with rfl | hot
    · rw [List.foldl_cons,
        foldl_insertOption_apply_of_not_mem t (insertOption m o) o.name hnd.1,
        insertOption_apply, if_pos rfl]
    · rw [List.foldl_cons]
      exact ih (insertOption m a) hot hnd.2

theorem buildMap_apply_of_mem_nodup (l : List DataOption) (o : DataOption) (ho : o ∈ l)
    (hnd : (l.map DataOption.name).Nodup) :
    buildMap l o.name = some (SlashValue.mk o.resolved o.name) :=
  foldl_insertOption_apply_of_mem_nodup l SlashMap.new o ho hnd

/-! Termination and chain lemmas. -/

theorem sizeOf_options_lt (opt : DataOption) (rest : List DataOption) :
    sizeOf opt.options < sizeOf (opt :: rest) := by
  cases opt
  simp [DataOption.options]
  omega

theorem walkFuel_eq_walk (n : Nat) (opts : List DataOption) (h : sizeOf opts ≤ n) :
    walkFuel n opts = some (walk opts) := by
  induction n generalizing opts with
  | zero =>
    exfalso
    cases opts <;> simp at h
  | succ n ih =>
    match opts with
    | [] =>
      rw [walk_nil]
      rfl
    | opt :: rest =>
      by_cases hk : opt.kind = OptionKind.SubCommand ∨ opt.kind = OptionKind.SubCommandGroup
      · rw [walk_cons_sub _ _ hk]
        have hlt : sizeOf opt.options ≤ n := by
          have := sizeOf_options_lt opt rest
          omega
        simp [walkFuel, hk, ih opt.options hlt]
      · rw [walk_cons_leaf _ _ hk]
        simp [walkFuel, hk]

theorem walk_chainOptions (ns : List String) : walk (chainOptions ns) = (ns, []) := by
  induction ns with
  | nil => exact walk_nil
  | cons n t ih =>
    rw [chainOptions,
      walk_cons_sub (DataOption.mk n OptionKind.SubCommand (chainOptions t) none) [] (Or.inl rfl)]
    simp [DataOption.name, DataOption.options, ih]

theorem intercalate_singleton (s : String) : String.intercalate " " [s] = s := rfl

/-- C5: `get_string` called on a cell whose non-empty value holds an Integer
returns WrongType with expected "String", found "Integer", and the cell's
name. -/
theorem c5_get_string_on_integer (n : Int) (name : String) :
    SlashValue.get_string (SlashValue.mk (some (TypedValue.Integer n)) name) =
      some (Except.error (Error.WrongType "String" "Integer" name)) := rfl

/-- C10: every accessor call is panic-free on every cell: each of the seven
`SlashValue` accessors returns an actual result (`isSome`), i.e. the `unwrap`
inside `get_type_name` (modelled by `none`) never fires, because
`get_type_name` is only reached after `expect_some` has succeeded. -/
theorem c10_accessors_panic_free (cell : SlashValue) :
    cell.get_string.isSome = true ∧ cell.get_integer.isSome = true ∧
    cell.get_boolean.isSome = true ∧ cell.get_user.isSome = true ∧
    cell.get_channel.isSome = true ∧ cell.get_role.isSome = true ∧
    cell.get_mentionable.isSome = true := by
  obtain ⟨inner, nm⟩ := cell
  cases inner with
  | none => exact ⟨rfl, rfl, rfl, rfl, rfl, rfl, rfl⟩
  | some v => cases v <;> exact ⟨rfl, rfl, rfl, rfl, rfl, rfl, rfl⟩

/-- C2: for a root followed by a chain of N nested SubCommand nodes, each the
only child of its parent, `process` returns the N+1 segments root name first,
deepest subcommand name last, joined by a single space. -/
theorem c2_subcommand_chain_path (root : String) (ns : List String) :
    (process ⟨root, chainOptions ns⟩).1 = String.intercalate " " (root :: ns) ∧
    (root :: ns).length = ns.length + 1 := by
  constructor
  · simp [process, walk_chainOptions]
  · simp

/-- C7: `process` is total on every finite input tree: the loop terminates
within `sizeOf` fuel (each step strictly descends into the first child's
subtree), and the result is always the path/table pair with no error
outcome in its type. -/
theorem c7_process_total (data : InteractionData) :
    walkFuel (sizeOf data.options) data.options = some (walk data.options) ∧
    process data =
      (String.intercalate " " (data.name :: (walk data.options).1),
        buildMap (walk data.options).2) :=
  ⟨walkFuel_eq_walk _ _ le_rfl, rfl⟩

/-- C6: when the first child (if any) is not a SubCommand or SubCommandGroup,
the resolver stops at once: the path is the root name alone and the residual
children handed to the table builder are the node's direct children,
unchanged. -/
theorem c6_leaf_first_child (data : InteractionData)
    (h : ∀ o, data.options.head? = some o →
      o.kind ≠ OptionKind.SubCommand ∧ o.kind ≠ OptionKind.SubCommandGroup) :
    walk data.options = ([], data.options) ∧
    process data = (data.name, buildMap data.options) := by
  have hw : walk data.options = ([], data.options) := by
    cases hopts : data.options with
    | nil => exact walk_nil
    | cons o t =>
      refine walk_cons_leaf o t ?_
      have := h o (by rw [hopts]; rfl)
      tauto
  refine ⟨hw, ?_⟩
  simp [process, hw, intercalate_singleton]

/-- Witness for C6 at a concrete payload whose only child is a String-kind
leaf. -/
theorem c6_leaf_first_child_witness :
    (∀ o, emptyCellData.options.head? = some o →
      o.kind ≠ OptionKind.SubCommand ∧ o.kind ≠ OptionKind.SubCommandGroup) ∧
    walk emptyCellData.options = ([], emptyCellData.options) ∧
    process emptyCellData = (emptyCellData.name, buildMap emptyCellData.options) := by
  have h : ∀ o, emptyCellData.options.head? = some o →
      o.kind ≠ OptionKind.SubCommand ∧ o.kind ≠ OptionKind.SubCommandGroup := by
    intro o ho
    cases ho
    exact ⟨by decide, by decide⟩
  exact ⟨h, c6_leaf_first_child emptyCellData h⟩

/-- C1: on a table produced by `process`, every one of the seven accessors
fails with MissingValue carrying exactly the requested name, both when the
name is absent from the table and when it is present with an empty inner
value; the two cases yield the same error. -/
theorem c1_missing_value_collapses (data : InteractionData) (name : String)
    (h : (process data).2 name = none ∨
      ∃ cell, (process data).2 name = some cell ∧ cell.inner = none) :
    SlashMap.get_string (process data).2 name =
      some (Except.error (Error.MissingValue name)) ∧
    SlashMap.get_integer (process data).2 name =
      some (Except.error (Error.MissingValue name)) ∧
    SlashMap.get_boolean (process data).2 name =
      some (Except.error (Error.MissingValue name)) ∧
    SlashMap.get_user (process data).2 name =
      some (Except.error (Error.MissingValue name)) ∧
    SlashMap.get_channel (process data).2 name =
      some (Except.error (Error.MissingValue name)) ∧
    SlashMap.get_role (process data).2 name =
      some (Except.error (Error.MissingValue name)) ∧
    SlashMap.get_mentionable (process data).2 name =
      some (Except.error (Error.MissingValue name)) := by
  rcases h with habs | ⟨cell, hcell, hinner⟩
  · refine ⟨?_, ?_, ?_, ?_, ?_, ?_, ?_⟩ <;>
      simp [SlashMap.get_string, SlashMap.get_integer, SlashMap.get_boolean,
        SlashMap.get_user, SlashMap.get_channel, SlashMap.get_role,
        SlashMap.get_mentionable, habs]
  · have hname : cell.name = name := by
      refine buildMap_name_invariant (walk data.options).2 name cell ?_
      exact hcell
    obtain ⟨inner, cnm⟩ := cell
    obtain rfl : inner = none := hinner
    obtain rfl : cnm = name := hname
    refine ⟨?_, ?_, ?_, ?_, ?_, ?_, ?_⟩ <;>
      simp [SlashMap.get_string, SlashMap.get_integer, SlashMap.get_boolean,
        SlashMap.get_user, SlashMap.get_channel, SlashMap.get_role,
        SlashMap.get_mentionable, hcell, SlashValue.get_string,
        SlashValue.get_integer, SlashValue.get_boolean, SlashValue.get_user,
        SlashValue.get_channel, SlashValue.get_role, SlashValue.get_mentionable,
        SlashValue.expect_some]

/-- Witness for C1 at a concrete payload whose option "x" is present with an
empty inner value. -/
theorem c1_missing_value_collapses_witness :
    (∃ cell, (process emptyCellData).2 "x" = some cell ∧ cell.inner = none) ∧
    SlashMap.get_string (process emptyCellData).2 "x" =
      some (Except.error (Error.MissingValue "x")) ∧
    SlashMap.get_integer (process emptyCellData).2 "x" =
      some (Except.error (Error.MissingValue "x")) ∧
    SlashMap.get_boolean (process emptyCellData).2 "x" =
      some (Except.error (Error.MissingValue "x")) ∧
    SlashMap.get_user (process emptyCellData).2 "x" =
      some (Except.error (Error.MissingValue "x")) ∧
    SlashMap.get_channel (process emptyCellData).2 "x" =
      some (Except.error (Error.MissingValue "x")) ∧
    SlashMap.get_role (process emptyCellData).2 "x" =
      some (Except.error (Error.MissingValue "x")) ∧
    SlashMap.get_mentionable (process emptyCellData).2 "x" =
      some (Except.error (Error.MissingValue "x")) := by
  have hsome : (process emptyCellData).2 "x" = some (SlashValue.mk none "x") := by
    simp [process, emptyCellData, walk_cons_leaf, DataOption.kind, DataOption.name,
      DataOption.resolved, buildMap, insertOption, SlashMap.insert, SlashMap.new]
  exact ⟨⟨SlashValue.mk none "x", hsome, rfl⟩,
    c1_missing_value_collapses emptyCellData "x"
      (Or.inr ⟨SlashValue.mk none "x", hsome, rfl⟩)⟩

/-- C9: the builder performs no deduplication; with two options of the same
name, the later entry in list order wins: the table maps the name to the
later option's value. -/
theorem c9_later_duplicate_wins (pre mid post : List DataOption) (o1 o2 : DataOption)
    (hdup : o1.name = o2.name) (hpost : ∀ o ∈ post, o.name ≠ o2.name) :
    buildMap (pre ++ o1 :: mid ++ o2 :: post) o2.name =
      some (SlashValue.mk o2.resolved o2.name) := by
  have hnotmem : o2.name ∉ post.map DataOption.name := by
    intro hmem
    rcases List.mem_map.mp hmem with ⟨o, ho, heq⟩
    exact hpost o ho heq
  have hsplit : pre ++ o1 :: mid ++ o2 :: post = (pre ++ o1 :: mid) ++ o2 :: post := by
    simp
  rw [hsplit]
  unfold buildMap
  rw [List.foldl_append, List.foldl_cons,
    foldl_insertOption_apply_of_not_mem post _ o2.name hnotmem,
    insertOption_apply, if_pos rfl]

/-- Witness for C9 at a two-element list holding two options both named "x". -/
theorem c9_later_duplicate_wins_witness :
    dupOpt1.name = dupOpt2.name ∧
    buildMap ([] ++ dupOpt1 :: [] ++ dupOpt2 :: []) dupOpt2.name =
      some (SlashValue.mk dupOpt2.resolved dupOpt2.name) :=
  ⟨rfl, c9_later_duplicate_wins [] [] [] dupOpt1 dupOpt2 rfl
    (fun o ho => absurd ho (List.not_mem_nil o))⟩

/-- C8: `get_mentionable` succeeds exactly on User-tagged and Role-tagged
values, normalizing them to the two Mentionable variants, and every other
accessor succeeds on exactly one tag. -/
theorem c8_mentionable_two_tags (v : TypedValue) (name : String) :
    (succeeds (SlashValue.get_mentionable (SlashValue.mk (some v) name)) = true ↔
      (v.tag = OptionKind.User ∨ v.tag = OptionKind.Role)) ∧
    (∀ u m, v = TypedValue.User u m →
      SlashValue.get_mentionable (SlashValue.mk (some v) name) =
        some (Except.ok (Mentionable.UserOrMember (UserOrMember.from_pair u m)))) ∧
    (∀ r, v = TypedValue.Role r →
      SlashValue.get_mentionable (SlashValue.mk (some v) name) =
        some (Except.ok (Mentionable.Role r))) ∧
    (succeeds (SlashValue.get_string (SlashValue.mk (some v) name)) = true ↔
      v.tag = OptionKind.String) ∧
    (succeeds (SlashValue.get_integer (SlashValue.mk (some v) name)) = true ↔
      v.tag = OptionKind.Integer) ∧
    (succeeds (SlashValue.get_boolean (SlashValue.mk (some v) name)) = true ↔
      v.tag = OptionKind.Boolean) ∧
    (succeeds (SlashValue.get_user (SlashValue.mk (some v) name)) = true ↔
      v.tag = OptionKind.User) ∧
    (succeeds (SlashValue.get_channel (SlashValue.mk (some v) name)) = true ↔
      v.tag = OptionKind.Channel) ∧
    (succeeds (SlashValue.get_role (SlashValue.mk (some v) name)) = true ↔
      v.tag = OptionKind.Role) := by
  cases v <;>
    refine ⟨?_, ?_, ?_, ?_, ?_, ?_, ?_, ?_, ?_⟩ <;>
    first
      | (intro u m h; cases h; rfl)
      | (intro u m h; cases h)
      | (intro r h; cases h; rfl)
      | (intro r h; cases h)
      | simp [succeeds, TypedValue.tag, SlashValue.get_mentionable,
          SlashValue.get_string, SlashValue.get_integer, SlashValue.get_boolean,
          SlashValue.get_user, SlashValue.get_channel, SlashValue.get_role,
          SlashValue.expect_some, SlashValue.get_type_name]

/-- Witness for C8 at a User-tagged and at a Role-tagged value. -/
theorem c8_mentionable_two_tags_witness :
    SlashValue.get_mentionable
        (SlashValue.mk (some (TypedValue.User (UserRec.mk 7) none)) "x") =
      some (Except.ok (Mentionable.UserOrMember
        (UserOrMember.from_pair (UserRec.mk 7) none))) ∧
    SlashValue.get_mentionable
        (SlashValue.mk (some (TypedValue.Role (RoleRec.mk 1 "r"))) "y") =
      some (Except.ok (Mentionable.Role (RoleRec.mk 1 "r"))) :=
  ⟨(c8_mentionable_two_tags (TypedValue.User (UserRec.mk 7) none) "x").2.1
      (UserRec.mk 7) none rfl,
    (c8_mentionable_two_tags (TypedValue.Role (RoleRec.mk 1 "r")) "y").2.2.1
      (RoleRec.mk 1 "r") rfl⟩

/-- C4 counterexample: a cell holding a Mentionable-tagged value makes
`get_string` report found = "Unknown", which does not name the Mentionable
variant, refuting the claim that for every TypedValue variant the `found`
field names that variant. -/
theorem c4_found_unknown_cex :
    SlashValue.get_string
        (SlashValue.mk (some (TypedValue.Mentionable (Sum.inr (RoleRec.mk 1 "r")))) "m") =
      some (Except.error (Error.WrongType "String" "Unknown" "m")) ∧
    "Unknown" ≠ "Mentionable" :=
  ⟨rfl, by decide⟩

/-- C4 (amended): on a mismatching non-empty cell each accessor fails with
WrongType whose `found` field names the actual variant for the six variants
handled by `get_type_name` (String, Integer, Boolean, User, Channel, Role)
and is the fallback "Unknown" for any other variant (Mentionable). -/
theorem c4_wrong_type_found_names_variant (v : TypedValue) (name : String) :
    (v.tag ≠ OptionKind.String →
      SlashValue.get_string (SlashValue.mk (some v) name) =
        some (Except.error (Error.WrongType "String" (variantName v) name))) ∧
    (v.tag ≠ OptionKind.Integer →
      SlashValue.get_integer (SlashValue.mk (some v) name) =
        some (Except.error (Error.WrongType "Integer" (variantName v) name))) ∧
    (v.tag ≠ OptionKind.Boolean →
      SlashValue.get_boolean (SlashValue.mk (some v) name) =
        some (Except.error (Error.WrongType "Boolean" (variantName v) name))) ∧
    (v.tag ≠ OptionKind.User →
      SlashValue.get_user (SlashValue.mk (some v) name) =
        some (Except.error (Error.WrongType "User" (variantName v) name))) ∧
    (v.tag ≠ OptionKind.Channel →
      SlashValue.get_channel (SlashValue.mk (some v) name) =
        some (Except.error (Error.WrongType "Channel" (variantName v) name))) ∧
    (v.tag ≠ OptionKind.Role →
      SlashValue.get_role (SlashValue.mk (some v) name) =
        some (Except.error (Error.WrongType "Role" (variantName v) name))) ∧
    (v.tag ≠ OptionKind.User ∧ v.tag ≠ OptionKind.Role →
      SlashValue.get_mentionable (SlashValue.mk (some v) name) =
        some (Except.error (Error.WrongType "Mentionable" (variantName v) name))) := by
  cases v <;>
    refine ⟨?_, ?_, ?_, ?_, ?_, ?_, ?_⟩ <;>
    first
      | (intro h; exact absurd rfl h)
      | (intro h; exact absurd rfl h.1)
      | (intro h; exact absurd rfl h.2)
      | (intro h; rfl)

/-- Witness for C4 at an Integer-tagged value read as a String. -/
theorem c4_wrong_type_found_names_variant_witness :
    TypedValue.tag (TypedValue.Integer 5) ≠ OptionKind.String ∧
    SlashValue.get_string (SlashValue.mk (some (TypedValue.Integer 5)) "x") =
      some (Except.error (Error.WrongType "String" (variantName (TypedValue.Integer 5)) "x")) :=
  ⟨by decide, (c4_wrong_type_found_names_variant (TypedValue.Integer 5) "x").1 (by decide)⟩

/-- C3 counterexample: for an option whose resolved value carries the
Mentionable tag, no accessor — in particular not `get_mentionable`, the one
section 4.3 pairs with that tag — returns Ok: every accessor fails, so the
round trip does not return the original value for that option. -/
theorem c3_round_trip_cex :
    SlashMap.get_mentionable (process mentionableTagData).2 "m" =
      some (Except.error (Error.WrongType "Mentionable" "Unknown" "m")) ∧
    SlashMap.get_string (process mentionableTagData).2 "m" =
      some (Except.error (Error.WrongType "String" "Unknown" "m")) ∧
    SlashMap.get_integer (process mentionableTagData).2 "m" =
      some (Except.error (Error.WrongType "Integer" "Unknown" "m")) ∧
    SlashMap.get_boolean (process mentionableTagData).2 "m" =
      some (Except.error (Error.WrongType "Boolean" "Unknown" "m")) ∧
    SlashMap.get_user (process mentionableTagData).2 "m" =
      some (Except.error (Error.WrongType "User" "Unknown" "m")) ∧
    SlashMap.get_channel (process mentionableTagData).2 "m" =
      some (Except.error (Error.WrongType "Channel" "Unknown" "m")) ∧
    SlashMap.get_role (process mentionableTagData).2 "m" =
      some (Except.error (Error.WrongType "Role" "Unknown" "m")) := by
  have hm : (process mentionableTagData).2 "m" =
      some (SlashValue.mk
        (some (TypedValue.Mentionable (Sum.inr (RoleRec.mk 1 "r")))) "m") := by
    simp [process, mentionableTagData, walk_cons_leaf, DataOption.kind,
      DataOption.name, DataOption.resolved, buildMap, insertOption,
      SlashMap.insert, SlashMap.new]
  refine ⟨?_, ?_, ?_, ?_, ?_, ?_, ?_⟩ <;>
    simp [SlashMap.get_string, SlashMap.get_integer, SlashMap.get_boolean,
      SlashMap.get_user, SlashMap.get_channel, SlashMap.get_role,
      SlashMap.get_mentionable, hm, SlashValue.get_string,
      SlashValue.get_integer, SlashValue.get_boolean, SlashValue.get_user,
      SlashValue.get_channel, SlashValue.get_role, SlashValue.get_mentionable,
      SlashValue.expect_some, SlashValue.get_type_name]

/-- C3 (amended): for a leaf-option list with distinct names and non-empty
resolved values, reading each name back through the accessor paired with its
value's tag returns Ok of the original value for the six tags String,
Integer, Boolean, User, Channel, Role; for a Mentionable-tagged value no
accessor succeeds (see the counterexample), so the round trip is asserted
for the six concrete tags only. -/
theorem c3_round_trip (data : InteractionData)
    (hleaf : ∀ o ∈ data.options,
      o.kind ≠ OptionKind.SubCommand ∧ o.kind ≠ OptionKind.SubCommandGroup)
    (hnd : (data.options.map DataOption.name).Nodup)
    (hres : ∀ o ∈ data.options, o.resolved.isSome = true) :
    ∀ o ∈ data.options, ∀ v, o.resolved = some v →
      readBack (process data).2 o.name v := by
  intro o ho v hv
  have hw : walk data.options = ([], data.options) := by
    cases hopts : data.options with
    | nil => exact walk_nil
    | cons a t =>
      refine walk_cons_leaf a t ?_
      have := hleaf a (by rw [hopts]; exact List.mem_cons_self a t)
      tauto
  have hm : (process data).2 o.name = some (SlashValue.mk o.resolved o.name) := by
    show buildMap (walk data.options).2 o.name = _
    rw [hw]
    exact buildMap_apply_of_mem_nodup data.options o ho hnd
  rw [hv] at hm
  cases v <;>
    simp [readBack, SlashMap.get_string, SlashMap.get_integer,
      SlashMap.get_boolean, SlashMap.get_user, SlashMap.get_channel,
      SlashMap.get_role, SlashMap.get_mentionable, hm, SlashValue.get_string,
      SlashValue.get_integer, SlashValue.get_boolean, SlashValue.get_user,
      SlashValue.get_channel, SlashValue.get_role, SlashValue.get_mentionable,
      SlashValue.expect_some]

/-- Witness for C3 at the concrete scenario of section 8: options "text"
(String "hi") and "integer" (Integer 42) both read back unchanged. -/
theorem c3_round_trip_witness :
    readBack (process roundTripData).2 "text" (TypedValue.String "hi") ∧
    readBack (process roundTripData).2 "integer" (TypedValue.Integer 42) :=
  ⟨c3_round_trip roundTripData (by decide) (by decide) (by decide)
      (DataOption.mk "text" OptionKind.String [] (some (TypedValue.String "hi")))
      (List.mem_cons_self _ _) (TypedValue.String "hi") rfl,
    c3_round_trip roundTripData (by decide) (by decide) (by decide)
      (DataOption.mk "integer" OptionKind.Integer [] (some (TypedValue.Integer 42)))
      (List.mem_cons_of_mem _ (List.mem_cons_self _ _)) (TypedValue.Integer 42) rfl⟩

end SlashDecode
